import Mathlib

/-!
# Verification of the Spotify streaming-history aggregator (`parse.py`)

A shallow embedding of the aggregator in `src/parse.py`.

Modelling conventions:
* Python values that can appear in a parsed JSON document are modelled by
  the inductive `Json`.  JSON numbers are modelled as integers (`Int`);
  no claim involves fractional numbers.  A `Json.obj` represents the
  Python `dict` produced by `json.loads`, an insertion-ordered
  association list whose keys are distinct.
* Python `dict`s used by the aggregator itself (the catalog, album and
  track maps) are insertion-ordered association lists `List (κ × α)`:
  `alGet` is `dict.get`/`dict[k]` lookup, `alSet` is `d[k] = v`
  (replacing in place when the key is present, appending otherwise) and
  `alGetD` is `dict.get(k, default)`.
* Exceptions are modelled with `Except PyError`.  `dict` keys must be
  hashable in Python; a `list` or `dict` key raises `TypeError`, which
  the fold model checks up front (`hashable`).  On an error path the
  in-flight catalog is discarded: the Python process never writes output
  after an uncaught exception, so the partially mutated state is not
  observable.
* Python's cross-type key equality (`True == 1`) is not modelled; no
  claim involves non-string, non-null record fields.
-/

/-- A parsed JSON value (the result of `json.loads`). -/
inductive Json where
  | null : Json
  | bool : Bool → Json
  | num : Int → Json
  | str : String → Json
  | arr : List Json → Json
  | obj : List (String × Json) → Json

mutual

/-- Structural boolean equality on `Json` (the automatic deriving does
not handle the nested inductive). -/
def Json.beq : Json → Json → Bool
  | .null, .null => true
  | .bool a, .bool b => a == b
  | .num a, .num b => a == b
  | .str a, .str b => a == b
  | .arr xs, .arr ys => Json.beqList xs ys
  | .obj xs, .obj ys => Json.beqObj xs ys
  | _, _ => false

/-- `Json.beq` lifted to lists of values. -/
def Json.beqList : List Json → List Json → Bool
  | [], [] => true
  | x :: xs, y :: ys => Json.beq x y && Json.beqList xs ys
  | _, _ => false

/-- `Json.beq` lifted to key/value lists. -/
def Json.beqObj : List (String × Json) → List (String × Json) → Bool
  | [], [] => true
  | (k1, v1) :: xs, (k2, v2) :: ys => k1 == k2 && Json.beq v1 v2 && Json.beqObj xs ys
  | _, _ => false

end

mutual

/-- Soundness and completeness of `Json.beq`, packaged as a definition so
that the `DecidableEq` instance can be set up before the model. -/
def Json.beq_iff : ∀ a b : Json, Json.beq a b = true ↔ a = b
  | a, b => by
    cases a <;> cases b <;> simp [Json.beq] <;>
      first
        | exact Json.beqList_iff _ _
        | exact Json.beqObj_iff _ _

/-- `Json.beqList` decides list equality. -/
def Json.beqList_iff : ∀ xs ys : List Json, Json.beqList xs ys = true ↔ xs = ys
  | [], [] => by simp [Json.beqList]
  | [], _ :: _ => by simp [Json.beqList]
  | _ :: _, [] => by simp [Json.beqList]
  | x :: xs, y :: ys => by
    simp only [Json.beqList, Bool.and_eq_true, List.cons.injEq]
    rw [Json.beq_iff x y, Json.beqList_iff xs ys]

/-- `Json.beqObj` decides key/value list equality. -/
def Json.beqObj_iff : ∀ xs ys : List (String × Json), Json.beqObj xs ys = true ↔ xs = ys
  | [], [] => by simp [Json.beqObj]
  | [], _ :: _ => by simp [Json.beqObj]
  | _ :: _, [] => by simp [Json.beqObj]
  | (k1, v1) :: xs, (k2, v2) :: ys => by
    simp only [Json.beqObj, Bool.and_eq_true, List.cons.injEq, Prod.mk.injEq,
      beq_iff_eq]
    rw [Json.beq_iff v1 v2, Json.beqObj_iff xs ys]

end

instance : DecidableEq Json := fun a b =>
  decidable_of_iff (Json.beq a b = true) (Json.beq_iff a b)

/-- The Python exceptions the aggregator can raise. -/
inductive PyError where
  | keyError : PyError
  | typeError : PyError
  | jsonDecodeError : PyError
deriving DecidableEq, Repr

/-- `d.get(k)` / `d[k]` lookup on an insertion-ordered Python dict. -/
def alGet {κ α : Type} [DecidableEq κ] : List (κ × α) → κ → Option α
  | [], _ => none
  | (k', v) :: rest, k => if k' = k then some v else alGet rest k

/-- `d.get(k, dflt)` on a Python dict. -/
def alGetD {κ α : Type} [DecidableEq κ] (d : List (κ × α)) (k : κ) (dflt : α) : α :=
  (alGet d k).getD dflt

/-- `d[k] = v` on a Python dict: replace in place if `k` is present
(keeping its position), append otherwise. -/
def alSet {κ α : Type} [DecidableEq κ] : List (κ × α) → κ → α → List (κ × α)
  | [], k, v => [(k, v)]
  | (k', v') :: rest, k, v =>
    if k' = k then (k, v) :: rest else (k', v') :: alSet rest k v

/-- The three required record fields (`LogEntry` keys in `parse.py`). -/
def artist_field : String := "master_metadata_album_artist_name"

def album_field : String := "master_metadata_album_album_name"

def track_field : String := "master_metadata_track_name"

/-- A validated `Entry` (dataclass `Entry` in `parse.py`).  The source
annotates the fields as `str`, but at runtime they hold whatever
non-null value the record carried, so they are modelled as `Json`. -/
structure Entry where
  artist_name : Json
  album_name : Json
  track_name : Json
deriving DecidableEq

/-- `log[k]` on a raw record: a Python subscript.  A dict raises
`KeyError` when the key is absent; every other JSON value raises
`TypeError` when subscripted with a string (this matters because
`list(json.loads(src))` can yield non-dict elements). -/
def jGet (log : Json) (k : String) : Except PyError Json :=
  match log with
  | .obj kvs =>
    match alGet kvs k with
    | some v => .ok v
    | none => .error .keyError
  | _ => .error .typeError

/-- `to_entry` from `parse.py`: look up the three fields in order,
returning `none` ("skip") as soon as one is null. -/
def to_entry (log : Json) : Except PyError (Option Entry) :=
  match jGet log artist_field with
  | .error e => .error e
  | .ok artist_name =>
    if artist_name = Json.null then .ok none else
    match jGet log album_field with
    | .error e => .error e
    | .ok album_name =>
      if album_name = Json.null then .ok none else
      match jGet log track_field with
      | .error e => .error e
      | .ok track_name =>
        if track_name = Json.null then .ok none
        else .ok (some ⟨artist_name, album_name, track_name⟩)

/-- Dataclass `Album`: per-track listen counters plus a rolled-up total. -/
structure Album where
  tracks : List (Json × Int) := []
  total_listens : Int := 0
deriving DecidableEq

/-- `Album.update`: bump the album total and the entry's track counter. -/
def Album.update (self : Album) (entry : Entry) : Album :=
  let track := alGetD self.tracks entry.track_name 0 + 1
  { tracks := alSet self.tracks entry.track_name track,
    total_listens := self.total_listens + 1 }

/-- Dataclass `Artist`: per-album `Album`s plus a rolled-up total. -/
structure Artist where
  albums : List (Json × Album) := []
  total_listens : Int := 0
deriving DecidableEq

/-- `Artist.update`: bump the artist total, then update (or create) the
entry's album via `Album.update`. -/
def Artist.update (self : Artist) (entry : Entry) : Artist :=
  let album := (alGetD self.albums entry.album_name {}).update entry
  { albums := alSet self.albums entry.album_name album,
    total_listens := self.total_listens + 1 }

/-- The shared `Parser.data` accumulator. -/
abbrev Catalog : Type := List (Json × Artist)

/-- Python `dict` keys must be hashable; `list`s and `dict`s are not. -/
def hashable : Json → Bool
  | .arr _ => false
  | .obj _ => false
  | _ => true

/-- The per-entry fold step from `Parser.load_dataset` (lines 100-102):
`artist = self.data.get(entry.artist_name, Artist())`,
`artist.update(entry)`, `self.data[entry.artist_name] = artist`.
An unhashable field raises `TypeError` at the corresponding dict
operation; the check order is observationally equivalent to a single
up-front guard because all three raise the same exception and the
partially mutated catalog on that path is never observed. -/
def processEntry (data : Catalog) (entry : Entry) : Except PyError Catalog :=
  if hashable entry.artist_name && hashable entry.album_name && hashable entry.track_name then
    .ok (alSet data entry.artist_name ((alGetD data entry.artist_name {}).update entry))
  else
    .error .typeError

/-- Python's `list(x)` coercion applied to `json.loads`'s result
(line 92 of `parse.py`): an array yields its elements, a dict yields its
keys (as strings), a string yields its one-character substrings, and
`null`, booleans and numbers are not iterable (`TypeError`). -/
def pyList : Json → Except PyError (List Json)
  | .arr xs => .ok xs
  | .obj kvs => .ok (kvs.map fun kv => Json.str kv.1)
  | .str s => .ok (s.data.map fun c => Json.str (String.singleton c))
  | .null => .error .typeError
  | .bool _ => .error .typeError
  | .num _ => .error .typeError

/-- The record loop of `Parser.load_dataset` (lines 94-102). -/
def processLogs (data : Catalog) : List Json → Except PyError Catalog
  | [] => .ok data
  | log :: rest =>
    match to_entry log with
    | .error e => .error e
    | .ok none => processLogs data rest
    | .ok (some entry) =>
      match processEntry data entry with
      | .error e => .error e
      | .ok d2 => processLogs d2 rest

/-- One file's contents: `none` models text that `json.loads` rejects
(`json.JSONDecodeError`), `some j` text that parses to the value `j`. -/
abbrev FileContents : Type := Option Json

/-- `Parser.load_dataset` on one file (progress printing omitted as
non-essential I/O). -/
def load_dataset (data : Catalog) (contents : FileContents) : Except PyError Catalog :=
  match contents with
  | none => .error .jsonDecodeError
  | some j =>
    match pyList j with
    | .error e => .error e
    | .ok logs => processLogs data logs

/-- The driver loop of `main`: ingest each file in discovery order. -/
def ingestAll (data : Catalog) : List FileContents → Except PyError Catalog
  | [] => .ok data
  | f :: fs =>
    match load_dataset data f with
    | .error e => .error e
    | .ok d2 => ingestAll d2 fs

/-- Stable insertion of one artist into a list already sorted by
descending `total_listens`: the element being inserted precedes every
element with a smaller-or-equal count because it came earlier in the
catalog. -/
def insertDesc (x : Json × Artist) : List (Json × Artist) → List (Json × Artist)
  | [] => [x]
  | y :: ys =>
    if y.2.total_listens ≤ x.2.total_listens then x :: y :: ys
    else y :: insertDesc x ys

/-- `sorted(self.data.items(), key=lambda kvp: kvp[1].total_listens,
reverse=True)` — Python's stable sort, descending by `total_listens`. -/
def sortArtists : List (Json × Artist) → List (Json × Artist)
  | [] => []
  | x :: xs => insertDesc x (sortArtists xs)

/-- One lowercase hex digit, as used by Python's `\uXXXX` escapes. -/
def hexDigit (n : Nat) : Char :=
  if n < 10 then Char.ofNat (48 + n) else Char.ofNat (87 + n)

/-- Four lowercase hex digits (`'{0:04x}'.format n` for `n < 0x10000`). -/
def hex4 (n : Nat) : String :=
  String.mk [hexDigit (n / 4096 % 16), hexDigit (n / 256 % 16),
    hexDigit (n / 16 % 16), hexDigit (n % 16)]

/-- Escape one character the way `json.dumps` (default `ensure_ascii`)
does: the named short escapes, `\uXXXX` for other characters outside
`0x20`-`0x7e`, and surrogate pairs above `0xffff`. -/
def escapeChar (c : Char) : String :=
  if c = '"' then "\\\""
  else if c = '\\' then "\\\\"
  else if c = '\x08' then "\\b"
  else if c = '\x0c' then "\\f"
  else if c = '\n' then "\\n"
  else if c = '\r' then "\\r"
  else if c = '\t' then "\\t"
  else if 0x20 ≤ c.toNat ∧ c.toNat ≤ 0x7e then String.singleton c
  else if c.toNat < 0x10000 then "\\u" ++ hex4 c.toNat
  else
    "\\u" ++ hex4 (0xd800 + (c.toNat - 0x10000) / 0x400) ++
    "\\u" ++ hex4 (0xdc00 + (c.toNat - 0x10000) % 0x400)

/-- A JSON string literal as emitted by `json.dumps`. -/
def encodeString (s : String) : String :=
  "\"" ++ String.join (s.data.map escapeChar) ++ "\""

/-- `json.dumps` coercion of a non-string Python dict key to a string.
Unhashable values (`arr`/`obj`) can never be dict keys, so that branch
is unreachable. -/
def pyKeyString : Json → String
  | .str s => s
  | .num n => toString n
  | .bool true => "true"
  | .bool false => "false"
  | .null => "null"
  | .arr _ => ""
  | .obj _ => ""

/-- `n` spaces, the indentation prefix at nesting depth `n / 4`. -/
def indentStr (n : Nat) : String :=
  String.mk (List.replicate n ' ')

/-- A JSON object as emitted by `json.dumps(..., indent=4)`: `lvl` is the
column of the members; each value is already rendered. -/
def dumpObj (lvl : Nat) (items : List (String × String)) : String :=
  match items with
  | [] => "\x7b\x7d"
  | _ =>
    "\x7b\n" ++
    String.intercalate ",\n"
      (items.map fun kv => indentStr lvl ++ encodeString kv.1 ++ ": " ++ kv.2) ++
    "\n" ++ indentStr (lvl - 4) ++ "\x7d"

/-- The serialized track-counter map of one album. -/
def dumpTracks (lvl : Nat) (tracks : List (Json × Int)) : String :=
  dumpObj lvl (tracks.map fun kv => (pyKeyString kv.1, toString kv.2))

/-- `asdict` of one `Album`, serialized: field order `tracks`,
`total_listens` as declared in the dataclass. -/
def dumpAlbum (lvl : Nat) (al : Album) : String :=
  dumpObj lvl
    [("tracks", dumpTracks (lvl + 4) al.tracks),
     ("total_listens", toString al.total_listens)]

/-- The serialized album map of one artist. -/
def dumpAlbums (lvl : Nat) (albums : List (Json × Album)) : String :=
  dumpObj lvl (albums.map fun kv => (pyKeyString kv.1, dumpAlbum (lvl + 4) kv.2))

/-- `asdict` of one `Artist`, serialized: field order `albums`,
`total_listens` as declared in the dataclass. -/
def dumpArtist (lvl : Nat) (ar : Artist) : String :=
  dumpObj lvl
    [("albums", dumpAlbums (lvl + 4) ar.albums),
     ("total_listens", toString ar.total_listens)]

/-- The full output document for an already-sorted artist list. -/
def dumpCatalog (sortedData : List (Json × Artist)) : String :=
  dumpObj 4 (sortedData.map fun kv => (pyKeyString kv.1, dumpArtist 8 kv.2))

/-- `Parser.save`: sort the catalog by descending `total_listens` and
pretty-print it with 4-space indentation.  Returns the exact byte
content written to `out/data.json`. -/
def save (data : Catalog) : String :=
  dumpCatalog (sortArtists data)

/-- What the program prints when the input directory is missing. -/
def missingDirMessage : String := "ERROR: Missing input directory \"./data\""

/-- The observable outcome of one process run: the exit status, the
error line printed to stdout (if any), and the contents written to
`out/data.json` (if reached). -/
structure RunResult where
  exitCode : Nat
  printedError : Option String
  outputFile : Option String
deriving DecidableEq, Repr

/-- `main` from `parse.py` (Lean reserves the name `main`, hence
`mainRun`).  The world is the input directory: `none` when `./data` does
not exist, otherwise the ordered list of discovered files' contents.  An
uncaught exception during ingestion terminates the interpreter with a
traceback and status 1, before `save` runs. -/
def mainRun (dataDir : Option (List FileContents)) : RunResult :=
  match dataDir with
  | none => ⟨1, some missingDirMessage, none⟩
  | some files =>
    match ingestAll [] files with
    | .error _ => ⟨1, none, none⟩
    | .ok c => ⟨0, none, some (save c)⟩

/-- Whether a JSON value is a top-level array (used to state the
malformed-file claim). -/
def isArr : Json → Bool
  | .arr _ => true
  | _ => false

/-- The pure catalog effect of one successfully processed entry:
`processEntry` returns exactly this when all three names are hashable. -/
def applyEntry (data : Catalog) (entry : Entry) : Catalog :=
  alSet data entry.artist_name ((alGetD data entry.artist_name {}).update entry)

/-- The entries a record list contributes, with the first exception the
record loop would raise; a factored view of `processLogs` (proved
equivalent in `processLogs_factor`). -/
def extractEntries : List Json → Except PyError (List Entry)
  | [] => .ok []
  | log :: rest =>
    match to_entry log with
    | .error e => .error e
    | .ok none => extractEntries rest
    | .ok (some entry) =>
      if hashable entry.artist_name && hashable entry.album_name && hashable entry.track_name then
        match extractEntries rest with
        | .error e => .error e
        | .ok es => .ok (entry :: es)
      else .error .typeError

/-- `list(json.loads(src))` for one file: the record list or the raised
exception. -/
def fileLogs : FileContents → Except PyError (List Json)
  | none => .error .jsonDecodeError
  | some j => pyList j

/-- The entries contributed by a list of files, in ingestion order. -/
def extractFiles : List FileContents → Except PyError (List Entry)
  | [] => .ok []
  | f :: fs =>
    match fileLogs f with
    | .error e => .error e
    | .ok logs =>
      match extractEntries logs with
      | .error e => .error e
      | .ok es =>
        match extractFiles fs with
        | .error e => .error e
        | .ok es2 => .ok (es ++ es2)

/-- An artist's rolled-up listen count in the catalog (0 when absent). -/
def artistListens (d : Catalog) (a : Json) : Int :=
  (alGetD d a {}).total_listens

/-- The album map stored for an artist (empty when absent). -/
def albumsOf (d : Catalog) (a : Json) : List (Json × Album) :=
  (alGetD d a {}).albums

/-- An album's rolled-up listen count (0 when artist or album absent). -/
def albumListens (d : Catalog) (a b : Json) : Int :=
  (alGetD (albumsOf d a) b {}).total_listens

/-- The track counters stored for an album (empty when absent). -/
def tracksOf (d : Catalog) (a b : Json) : List (Json × Int) :=
  (alGetD (albumsOf d a) b {}).tracks

/-- A track's listen count (0 when any level is absent). -/
def trackListens (d : Catalog) (a b t : Json) : Int :=
  alGetD (tracksOf d a b) t 0

/-- How many entries of a stream belong to artist `a`. -/
def countArtist (a : Json) : List Entry → Int
  | [] => 0
  | e :: es => (if e.artist_name = a then 1 else 0) + countArtist a es

/-- How many entries of a stream belong to artist `a`, album `b`. -/
def countAlbum (a b : Json) : List Entry → Int
  | [] => 0
  | e :: es =>
    (if e.artist_name = a ∧ e.album_name = b then 1 else 0) + countAlbum a b es

/-- How many entries of a stream belong to artist `a`, album `b`,
track `t`. -/
def countTrack (a b t : Json) : List Entry → Int
  | [] => 0
  | e :: es =>
    (if e.artist_name = a ∧ e.album_name = b ∧ e.track_name = t then 1 else 0) +
      countTrack a b t es

/-- The sum of an album map's rolled-up listen counts. -/
def sumAlbumListens (albums : List (Json × Album)) : Int :=
  (albums.map fun kv => kv.2.total_listens).sum

/-- `sum(tracks.values())`. -/
def sumTrackCounts (tracks : List (Json × Int)) : Int :=
  (tracks.map fun kv => kv.2).sum

/-- The spec's Album invariant: `total_listens == sum(tracks.values())`. -/
def Album.consistent (al : Album) : Prop :=
  al.total_listens = sumTrackCounts al.tracks

/-- The spec's Artist invariant: the rolled-up count matches the albums,
and every album is itself consistent. -/
def Artist.consistent (ar : Artist) : Prop :=
  ar.total_listens = sumAlbumListens ar.albums ∧
  ∀ kv ∈ ar.albums, Album.consistent kv.2

/-- P1, counter consistency, over the whole catalog. -/
def catalogConsistent (d : Catalog) : Prop :=
  ∀ kv ∈ d, Artist.consistent kv.2

/-- The artist keys of the catalog, in dict insertion order. -/
def keysOf (d : Catalog) : List Json :=
  d.map Prod.fst

/-- Append a key unless it is already known (first occurrence wins). -/
def dedupAppend (ks : List Json) (x : Json) : List Json :=
  if x ∈ ks then ks else ks ++ [x]

/-- The artists of an entry stream in first-encounter order. -/
def firstEncounterOrder (es : List Entry) : List Json :=
  es.foldl (fun ks e => dedupAppend ks e.artist_name) []

/-- A raw record over the three `LogEntry` keys: each field is absent
(`none`) or present with a value. -/
def mkRecord (va vb vt : Option Json) : Json :=
  .obj ((va.map fun v => (artist_field, v)).toList ++
    (vb.map fun v => (album_field, v)).toList ++
    (vt.map fun v => (track_field, v)).toList)

/-- Scenario record `{A, X, T1}` with the spec's full key names. -/
def recAXT1 : Json :=
  .obj [(artist_field, .str "A"), (album_field, .str "X"), (track_field, .str "T1")]

/-- Scenario record `{A, X, T2}`. -/
def recAXT2 : Json :=
  .obj [(artist_field, .str "A"), (album_field, .str "X"), (track_field, .str "T2")]

/-- Scenario record `{null, Y, T3}`. -/
def recNullYT3 : Json :=
  .obj [(artist_field, .null), (album_field, .str "Y"), (track_field, .str "T3")]

/-- The spec's scenario input: one file with the four records. -/
def scenarioFiles : List FileContents :=
  [some (.arr [recAXT1, recAXT1, recAXT2, recNullYT3])]

/-- The catalog the scenario builds. -/
def scenarioCatalog : Catalog :=
  [(.str "A",
    { albums := [(.str "X", { tracks := [(.str "T1", 2), (.str "T2", 1)], total_listens := 3 })],
      total_listens := 3 })]

/-! ## Association-list (Python dict) lemmas -/

theorem alGet_alSet_self {κ α : Type} [DecidableEq κ] (d : List (κ × α)) (k : κ) (v : α) :
    alGet (alSet d k v) k = some v := by
  induction d with
  | nil => simp [alGet, alSet]
  | cons hd tl ih =>
    obtain ⟨k', v'⟩ := hd
    by_cases h : k' = k
    · simp [alGet, alSet, h]
    · simp [alGet, alSet, h, ih]

theorem alGet_alSet_ne {κ α : Type} [DecidableEq κ] (d : List (κ × α)) (k k' : κ) (v : α)
    (h : k' ≠ k) : alGet (alSet d k v) k' = alGet d k' := by
  induction d with
  | nil => simp [alGet, alSet, Ne.symm h]
  | cons hd tl ih =>
    obtain ⟨k'', v''⟩ := hd
    by_cases h2 : k'' = k
    · subst h2
      simp [alGet, alSet, Ne.symm h]
    · simp only [alSet, if_neg h2, alGet, ih]

theorem mem_alSet {κ α : Type} [DecidableEq κ] (d : List (κ × α)) (k : κ) (v : α)
    (kv : κ × α) (h : kv ∈ alSet d k v) : kv = (k, v) ∨ kv ∈ d := by
  induction d with
  | nil =>
    simp [alSet] at h
    exact Or.inl h
  | cons hd tl ih =>
    obtain ⟨k', v'⟩ := hd
    by_cases h2 : k' = k
    · simp [alSet, h2] at h
      rcases h with h | h
      · exact Or.inl h
      · exact Or.inr (List.mem_cons_of_mem _ h)
    · simp only [alSet, if_neg h2, List.mem_cons] at h
      rcases h with h | h
      · exact Or.inr (by simp [h])
      · rcases ih h with h3 | h3
        · exact Or.inl h3
        · exact Or.inr (List.mem_cons_of_mem _ h3)

theorem alGet_mem {κ α : Type} [DecidableEq κ] (d : List (κ × α)) (k : κ) (v : α)
    (h : alGet d k = some v) : (k, v) ∈ d := by
  induction d with
  | nil => simp [alGet] at h
  | cons hd tl ih =>
    obtain ⟨k', v'⟩ := hd
    by_cases h2 : k' = k
    · subst h2
      simp [alGet] at h
      simp [h]
    · simp [alGet, h2] at h
      exact List.mem_cons_of_mem _ (ih h)

theorem sum_alSet {κ α : Type} [DecidableEq κ] (d : List (κ × α)) (k : κ) (v : α)
    (f : α → Int) :
    ((alSet d k v).map fun kv => f kv.2).sum =
      (d.map fun kv => f kv.2).sum + f v -
        (match alGet d k with | some w => f w | none => 0) := by
  induction d with
  | nil => simp [alGet, alSet]
  | cons hd tl ih =>
    obtain ⟨k', v'⟩ := hd
    by_cases h : k' = k
    · simp only [alSet, if_pos h, alGet, List.map_cons, List.sum_cons]
      omega
    · simp only [alSet, if_neg h, alGet, List.map_cons, List.sum_cons, ih]
      omega

theorem keys_alSet {κ α : Type} [DecidableEq κ] (d : List (κ × α)) (k : κ) (v : α) :
    (alSet d k v).map Prod.fst =
      if (alGet d k).isSome then d.map Prod.fst else d.map Prod.fst ++ [k] := by
  induction d with
  | nil => simp [alGet, alSet]
  | cons hd tl ih =>
    obtain ⟨k', v'⟩ := hd
    by_cases h : k' = k
    · simp [alSet, alGet, h]
    · simp only [alSet, if_neg h, alGet, List.map_cons, ih]
      by_cases h2 : (alGet tl k).isSome <;> simp [h2]

theorem alGet_isSome_iff {κ α : Type} [DecidableEq κ] (d : List (κ × α)) (k : κ) :
    (alGet d k).isSome ↔ k ∈ d.map Prod.fst := by
  induction d with
  | nil => simp [alGet]
  | cons hd tl ih =>
    obtain ⟨k', v'⟩ := hd
    by_cases h : k' = k
    · simp [alGet, h]
    · simp [alGet, h, ih, Ne.symm h]

/-! ## Per-entry fold lemmas -/

theorem processEntry_ok (d : Catalog) (e : Entry) (d' : Catalog)
    (h : processEntry d e = .ok d') : d' = applyEntry d e := by
  unfold processEntry at h
  by_cases hg : (hashable e.artist_name && hashable e.album_name && hashable e.track_name) = true
  · rw [if_pos hg] at h
    exact (Except.ok.injEq _ _ ▸ h).symm ▸ rfl
  · rw [if_neg hg] at h
    cases h

theorem alGet_applyEntry_self (d : Catalog) (e : Entry) :
    alGet (applyEntry d e) e.artist_name =
      some ((alGetD d e.artist_name {}).update e) := by
  unfold applyEntry
  exact alGet_alSet_self _ _ _

theorem alGet_applyEntry_ne (d : Catalog) (e : Entry) (a : Json)
    (h : a ≠ e.artist_name) : alGet (applyEntry d e) a = alGet d a := by
  unfold applyEntry
  exact alGet_alSet_ne _ _ _ _ h

theorem artistListens_applyEntry (d : Catalog) (e : Entry) (a : Json) :
    artistListens (applyEntry d e) a =
      artistListens d a + (if e.artist_name = a then 1 else 0) := by
  by_cases ha : a = e.artist_name
  · subst ha
    simp only [artistListens, alGetD, alGet_applyEntry_self, Option.getD_some, if_pos rfl]
    rfl
  · simp only [artistListens, alGetD, alGet_applyEntry_ne d e a ha, if_neg (Ne.symm ha),
      add_zero]

theorem albumsOf_applyEntry_self (d : Catalog) (e : Entry) :
    albumsOf (applyEntry d e) e.artist_name =
      alSet (albumsOf d e.artist_name) e.album_name
        ((alGetD (albumsOf d e.artist_name) e.album_name {}).update e) := by
  simp only [albumsOf, alGetD, alGet_applyEntry_self, Option.getD_some]
  rfl

theorem albumsOf_applyEntry_ne (d : Catalog) (e : Entry) (a : Json)
    (h : a ≠ e.artist_name) : albumsOf (applyEntry d e) a = albumsOf d a := by
  simp only [albumsOf, alGetD, alGet_applyEntry_ne d e a h]

theorem albumListens_applyEntry (d : Catalog) (e : Entry) (a b : Json) :
    albumListens (applyEntry d e) a b =
      albumListens d a b +
        (if e.artist_name = a ∧ e.album_name = b then 1 else 0) := by
  by_cases ha : a = e.artist_name
  · subst ha
    by_cases hb : b = e.album_name
    · subst hb
      simp only [albumListens, albumsOf_applyEntry_self, alGetD, alGet_alSet_self,
        Option.getD_some]
      simp [Album.update]
    · simp only [albumListens, albumsOf_applyEntry_self, alGetD,
        alGet_alSet_ne _ _ _ _ hb]
      simp [Ne.symm hb]
  · simp only [albumListens, albumsOf_applyEntry_ne d e a ha]
    simp [Ne.symm ha]

theorem tracksOf_applyEntry_self (d : Catalog) (e : Entry) :
    tracksOf (applyEntry d e) e.artist_name e.album_name =
      alSet (tracksOf d e.artist_name e.album_name) e.track_name
        (alGetD (tracksOf d e.artist_name e.album_name) e.track_name 0 + 1) := by
  simp only [tracksOf, albumsOf_applyEntry_self, alGetD, alGet_alSet_self,
    Option.getD_some]
  rfl

theorem tracksOf_applyEntry_ne_album (d : Catalog) (e : Entry) (b : Json)
    (h : b ≠ e.album_name) :
    tracksOf (applyEntry d e) e.artist_name b = tracksOf d e.artist_name b := by
  simp only [tracksOf, albumsOf_applyEntry_self, alGetD, alGet_alSet_ne _ _ _ _ h]

theorem tracksOf_applyEntry_ne_artist (d : Catalog) (e : Entry) (a b : Json)
    (h : a ≠ e.artist_name) :
    tracksOf (applyEntry d e) a b = tracksOf d a b := by
  simp only [tracksOf, albumsOf_applyEntry_ne d e a h]

theorem trackListens_applyEntry (d : Catalog) (e : Entry) (a b t : Json) :
    trackListens (applyEntry d e) a b t =
      trackListens d a b t +
        (if e.artist_name = a ∧ e.album_name = b ∧ e.track_name = t then 1 else 0) := by
  by_cases ha : a = e.artist_name
  · subst ha
    by_cases hb : b = e.album_name
    · subst hb
      by_cases ht : t = e.track_name
      · subst ht
        simp only [trackListens, tracksOf_applyEntry_self, alGetD, alGet_alSet_self,
          Option.getD_some]
        simp
      · simp only [trackListens, tracksOf_applyEntry_self, alGetD,
          alGet_alSet_ne _ _ _ _ ht]
        simp [Ne.symm ht]
    · simp only [trackListens, tracksOf_applyEntry_ne_album d e b hb]
      simp [Ne.symm hb]
  · simp only [trackListens, tracksOf_applyEntry_ne_artist d e a _ ha]
    simp [Ne.symm ha]

/-! ## Factoring the ingestion loop through its entry stream -/

theorem processEntry_eq_ok (d : Catalog) (e : Entry)
    (hg : (hashable e.artist_name && hashable e.album_name && hashable e.track_name) = true) :
    processEntry d e = .ok (applyEntry d e) := by
  simp [processEntry, applyEntry, hg]

theorem processEntry_eq_error (d : Catalog) (e : Entry)
    (hg : (hashable e.artist_name && hashable e.album_name && hashable e.track_name) = false) :
    processEntry d e = .error .typeError := by
  simp [processEntry, hg]

theorem processLogs_cons_entry (log : Json) (rest : List Json) (d : Catalog)
    (entry : Entry) (hte : to_entry log = .ok (some entry)) :
    processLogs d (log :: rest) =
      match processEntry d entry with
      | .error e => .error e
      | .ok d2 => processLogs d2 rest := by
  simp only [processLogs, hte]

theorem extractEntries_cons_entry (log : Json) (rest : List Json)
    (entry : Entry) (hte : to_entry log = .ok (some entry)) :
    extractEntries (log :: rest) =
      if (hashable entry.artist_name && hashable entry.album_name &&
          hashable entry.track_name) = true then
        match extractEntries rest with
        | .error e => .error e
        | .ok es => .ok (entry :: es)
      else .error .typeError := by
  simp only [extractEntries, hte]

theorem processLogs_factor : ∀ (logs : List Json) (d : Catalog),
    processLogs d logs = (extractEntries logs).map fun es => es.foldl applyEntry d
  | [], d => by simp [processLogs, extractEntries, Except.map]
  | log :: rest, d => by
    cases hte : to_entry log with
    | error e =>
      simp [processLogs, extractEntries, hte, Except.map]
    | ok oe =>
      cases oe with
      | none =>
        simp only [processLogs, extractEntries, hte]
        exact processLogs_factor rest d
      | some entry =>
        rw [processLogs_cons_entry log rest d entry hte,
          extractEntries_cons_entry log rest entry hte]
        cases hg : (hashable entry.artist_name && hashable entry.album_name &&
            hashable entry.track_name) with
        | true =>
          rw [processEntry_eq_ok d entry hg]
          show processLogs (applyEntry d entry) rest = _
          rw [processLogs_factor rest (applyEntry d entry), if_pos (Eq.refl true)]
          cases hee : extractEntries rest with
          | error e => rfl
          | ok es => simp [Except.map]
        | false =>
          rw [processEntry_eq_error d entry hg, if_neg (by decide)]
          rfl

theorem load_dataset_eq (d : Catalog) (f : FileContents) :
    load_dataset d f =
      match fileLogs f with
      | .error e => .error e
      | .ok logs => processLogs d logs := by
  cases f <;> rfl

theorem ingestAll_factor : ∀ (files : List FileContents) (d : Catalog),
    ingestAll d files = (extractFiles files).map fun es => es.foldl applyEntry d
  | [], d => by simp [ingestAll, extractFiles, Except.map]
  | f :: fs, d => by
    unfold ingestAll extractFiles
    rw [load_dataset_eq]
    cases hfl : fileLogs f with
    | error e => rfl
    | ok logs =>
      show (match processLogs d logs with
        | Except.error e => Except.error e
        | Except.ok d2 => ingestAll d2 fs) =
        Except.map (fun es => es.foldl applyEntry d)
          (match extractEntries logs with
            | Except.error e => Except.error e
            | Except.ok es =>
              match extractFiles fs with
              | Except.error e => Except.error e
              | Except.ok es2 => Except.ok (es ++ es2))
      rw [processLogs_factor logs d]
      cases hee : extractEntries logs with
      | error e => rfl
      | ok es =>
        show ingestAll (es.foldl applyEntry d) fs = _
        rw [ingestAll_factor fs (es.foldl applyEntry d)]
        cases hef : extractFiles fs with
        | error e => rfl
        | ok es2 => simp [Except.map, List.foldl_append]

/-! ## Counter additivity over an entry stream -/

theorem artistListens_nil (a : Json) : artistListens [] a = 0 := rfl

theorem albumListens_nil (a b : Json) : albumListens [] a b = 0 := rfl

theorem trackListens_nil (a b t : Json) : trackListens [] a b t = 0 := rfl

theorem artistListens_foldl : ∀ (es : List Entry) (d : Catalog) (a : Json),
    artistListens (es.foldl applyEntry d) a = artistListens d a + countArtist a es
  | [], d, a => by simp [countArtist]
  | e :: es, d, a => by
    simp only [List.foldl_cons, countArtist]
    rw [artistListens_foldl es (applyEntry d e) a, artistListens_applyEntry]
    omega

theorem albumListens_foldl : ∀ (es : List Entry) (d : Catalog) (a b : Json),
    albumListens (es.foldl applyEntry d) a b = albumListens d a b + countAlbum a b es
  | [], d, a, b => by simp [countAlbum]
  | e :: es, d, a, b => by
    simp only [List.foldl_cons, countAlbum]
    rw [albumListens_foldl es (applyEntry d e) a b, albumListens_applyEntry]
    omega

theorem trackListens_foldl : ∀ (es : List Entry) (d : Catalog) (a b t : Json),
    trackListens (es.foldl applyEntry d) a b t =
      trackListens d a b t + countTrack a b t es
  | [], d, a, b, t => by simp [countTrack]
  | e :: es, d, a, b, t => by
    simp only [List.foldl_cons, countTrack]
    rw [trackListens_foldl es (applyEntry d e) a b t, trackListens_applyEntry]
    omega

/-! ## Counter-consistency invariant -/

theorem album_update_total (al : Album) (e : Entry) :
    (al.update e).total_listens = al.total_listens + 1 := rfl

theorem album_update_tracks (al : Album) (e : Entry) :
    (al.update e).tracks =
      alSet al.tracks e.track_name (alGetD al.tracks e.track_name 0 + 1) := rfl

theorem artist_update_total (ar : Artist) (e : Entry) :
    (ar.update e).total_listens = ar.total_listens + 1 := rfl

theorem artist_update_albums (ar : Artist) (e : Entry) :
    (ar.update e).albums =
      alSet ar.albums e.album_name ((alGetD ar.albums e.album_name {}).update e) := rfl

theorem sumTrackCounts_alSet (d : List (Json × Int)) (k : Json) (v : Int) :
    sumTrackCounts (alSet d k v) =
      sumTrackCounts d + v - (match alGet d k with | some w => w | none => 0) := by
  induction d with
  | nil => simp [alGet, alSet, sumTrackCounts]
  | cons hd tl ih =>
    obtain ⟨k', v'⟩ := hd
    by_cases h : k' = k
    · simp only [alSet, if_pos h, alGet, sumTrackCounts, List.map_cons, List.sum_cons]
      omega
    · simp only [alSet, if_neg h, alGet, sumTrackCounts, List.map_cons, List.sum_cons]
      unfold sumTrackCounts at ih
      omega

theorem sumAlbumListens_alSet (d : List (Json × Album)) (k : Json) (v : Album) :
    sumAlbumListens (alSet d k v) =
      sumAlbumListens d + v.total_listens -
        (match alGet d k with | some w => w.total_listens | none => 0) := by
  induction d with
  | nil => simp [alGet, alSet, sumAlbumListens]
  | cons hd tl ih =>
    obtain ⟨k', v'⟩ := hd
    by_cases h : k' = k
    · simp only [alSet, if_pos h, alGet, sumAlbumListens, List.map_cons, List.sum_cons]
      omega
    · simp only [alSet, if_neg h, alGet, sumAlbumListens, List.map_cons, List.sum_cons]
      unfold sumAlbumListens at ih
      omega

theorem default_album_consistent : Album.consistent {} := by
  simp [Album.consistent, sumTrackCounts]

theorem default_artist_consistent : Artist.consistent {} := by
  constructor
  · simp [sumAlbumListens]
  · intro kv hkv
    cases hkv

theorem album_update_consistent (al : Album) (e : Entry) (h : al.consistent) :
    (al.update e).consistent := by
  unfold Album.consistent at *
  rw [album_update_total, album_update_tracks, sumTrackCounts_alSet]
  cases hg : alGet al.tracks e.track_name with
  | none => simp only [alGetD, hg, Option.getD_none]; omega
  | some w => simp only [alGetD, hg, Option.getD_some]; omega

theorem artist_update_consistent (ar : Artist) (e : Entry) (h : ar.consistent) :
    (ar.update e).consistent := by
  obtain ⟨h1, h2⟩ := h
  have hold : Album.consistent (alGetD ar.albums e.album_name {}) := by
    cases hg : alGet ar.albums e.album_name with
    | none => simpa [alGetD, hg] using default_album_consistent
    | some w =>
      simp only [alGetD, hg, Option.getD_some]
      exact h2 _ (alGet_mem _ _ _ hg)
  constructor
  · rw [artist_update_total, artist_update_albums, sumAlbumListens_alSet,
      album_update_total]
    cases hg : alGet ar.albums e.album_name with
    | none => simp only [alGetD, hg, Option.getD_none]; omega
    | some w => simp only [alGetD, hg, Option.getD_some]; omega
  · intro kv hkv
    rw [artist_update_albums] at hkv
    rcases mem_alSet _ _ _ _ hkv with h3 | h3
    · rw [h3]
      exact album_update_consistent _ _ hold
    · exact h2 _ h3

theorem applyEntry_consistent (d : Catalog) (e : Entry) (h : catalogConsistent d) :
    catalogConsistent (applyEntry d e) := by
  intro kv hkv
  unfold applyEntry at hkv
  rcases mem_alSet _ _ _ _ hkv with h2 | h2
  · rw [h2]
    refine artist_update_consistent _ _ ?_
    cases hg : alGet d e.artist_name with
    | none => simpa [alGetD, hg] using default_artist_consistent
    | some w =>
      simp only [alGetD, hg, Option.getD_some]
      exact h _ (alGet_mem _ _ _ hg)
  · exact h _ h2

theorem foldl_consistent : ∀ (es : List Entry) (d : Catalog),
    catalogConsistent d → catalogConsistent (es.foldl applyEntry d)
  | [], _, h => h
  | e :: es, d, h => by
    simp only [List.foldl_cons]
    exact foldl_consistent es (applyEntry d e) (applyEntry_consistent d e h)

theorem nil_consistent : catalogConsistent [] := by
  intro kv hkv
  cases hkv

/-! ## Sorting: order and stability -/

theorem mem_insertDesc (x z : Json × Artist) :
    ∀ l : List (Json × Artist), z ∈ insertDesc x l ↔ z = x ∨ z ∈ l
  | [] => by simp [insertDesc]
  | y :: ys => by
    unfold insertDesc
    by_cases hc : y.2.total_listens ≤ x.2.total_listens
    · rw [if_pos hc]
      simp [List.mem_cons]
    · rw [if_neg hc]
      simp only [List.mem_cons, mem_insertDesc x z ys]
      tauto

theorem pairwise_insertDesc (x : Json × Artist) (l : List (Json × Artist))
    (h : l.Pairwise fun p q => q.2.total_listens ≤ p.2.total_listens) :
    (insertDesc x l).Pairwise fun p q => q.2.total_listens ≤ p.2.total_listens := by
  induction l with
  | nil => simp [insertDesc]
  | cons y ys ih =>
    rw [List.pairwise_cons] at h
    obtain ⟨hy, hys⟩ := h
    unfold insertDesc
    by_cases hc : y.2.total_listens ≤ x.2.total_listens
    · rw [if_pos hc]
      refine List.Pairwise.cons ?_ (List.Pairwise.cons hy hys)
      intro z hz
      rcases List.mem_cons.mp hz with h1 | h1
      · rw [h1]
        exact hc
      · exact le_trans (hy z h1) hc
    · rw [if_neg hc]
      refine List.Pairwise.cons ?_ (ih hys)
      intro z hz
      rcases (mem_insertDesc x z ys).mp hz with h1 | h1
      · rw [h1]
        omega
      · exact hy z h1

theorem sortArtists_pairwise :
    ∀ l : List (Json × Artist),
      (sortArtists l).Pairwise fun p q => q.2.total_listens ≤ p.2.total_listens
  | [] => List.Pairwise.nil
  | x :: xs => pairwise_insertDesc x _ (sortArtists_pairwise xs)

theorem filter_insertDesc (n : Int) (x : Json × Artist) :
    ∀ l : List (Json × Artist),
      (insertDesc x l).filter (fun kv => kv.2.total_listens = n) =
        if x.2.total_listens = n then
          x :: l.filter (fun kv => kv.2.total_listens = n)
        else l.filter (fun kv => kv.2.total_listens = n)
  | [] => by
    by_cases hx : x.2.total_listens = n <;> simp [insertDesc, hx]
  | y :: ys => by
    unfold insertDesc
    by_cases hc : y.2.total_listens ≤ x.2.total_listens
    · rw [if_pos hc]
      by_cases hx : x.2.total_listens = n <;> by_cases hy : y.2.total_listens = n <;>
        simp [List.filter_cons, hx, hy]
    · rw [if_neg hc, List.filter_cons, filter_insertDesc n x ys]
      by_cases hx : x.2.total_listens = n
      · by_cases hy : y.2.total_listens = n
        · exact absurd (by omega) hc
        · simp [hx, hy]
      · by_cases hy : y.2.total_listens = n <;> simp [hx, hy]

theorem sortArtists_filter (n : Int) :
    ∀ l : List (Json × Artist),
      (sortArtists l).filter (fun kv => kv.2.total_listens = n) =
        l.filter (fun kv => kv.2.total_listens = n)
  | [] => rfl
  | x :: xs => by
    show (insertDesc x (sortArtists xs)).filter _ = _
    rw [filter_insertDesc n x (sortArtists xs), sortArtists_filter n xs,
      List.filter_cons]
    by_cases hx : x.2.total_listens = n <;> simp [hx]

/-! ## Catalog key order is first-encounter order -/

theorem keysOf_applyEntry (d : Catalog) (e : Entry) :
    keysOf (applyEntry d e) = dedupAppend (keysOf d) e.artist_name := by
  unfold applyEntry keysOf dedupAppend
  rw [keys_alSet]
  by_cases h : e.artist_name ∈ d.map Prod.fst
  · rw [if_pos ((alGet_isSome_iff d e.artist_name).mpr h), if_pos h]
  · rw [if_neg (fun hh => h ((alGet_isSome_iff d e.artist_name).mp hh)),
      if_neg h]

theorem keysOf_foldl : ∀ (es : List Entry) (d : Catalog),
    keysOf (es.foldl applyEntry d) =
      es.foldl (fun ks e => dedupAppend ks e.artist_name) (keysOf d)
  | [], _ => rfl
  | e :: es, d => by
    simp only [List.foldl_cons]
    rw [keysOf_foldl es (applyEntry d e), keysOf_applyEntry]

/-! ## `to_entry` outcome helpers -/

theorem processLogs_single_skip (r : Json) (d : Catalog)
    (h : to_entry r = .ok none) : processLogs d [r] = .ok d := by
  simp [processLogs, h]

theorem to_entry_artist_error (log : Json) (e : PyError)
    (h : jGet log artist_field = .error e) : to_entry log = .error e := by
  simp [to_entry, h]

theorem to_entry_artist_null (log : Json)
    (h : jGet log artist_field = .ok Json.null) : to_entry log = .ok none := by
  simp [to_entry, h]

theorem to_entry_album_error (log : Json) (a : Json) (e : PyError)
    (ha : jGet log artist_field = .ok a) (hna : a ≠ Json.null)
    (h : jGet log album_field = .error e) : to_entry log = .error e := by
  simp [to_entry, ha, hna, h]

theorem to_entry_album_null (log : Json) (a : Json)
    (ha : jGet log artist_field = .ok a) (hna : a ≠ Json.null)
    (h : jGet log album_field = .ok Json.null) : to_entry log = .ok none := by
  simp [to_entry, ha, hna, h]

theorem to_entry_track_error (log : Json) (a b : Json) (e : PyError)
    (ha : jGet log artist_field = .ok a) (hna : a ≠ Json.null)
    (hb : jGet log album_field = .ok b) (hnb : b ≠ Json.null)
    (h : jGet log track_field = .error e) : to_entry log = .error e := by
  simp [to_entry, ha, hna, hb, hnb, h]

theorem to_entry_track_null (log : Json) (a b : Json)
    (ha : jGet log artist_field = .ok a) (hna : a ≠ Json.null)
    (hb : jGet log album_field = .ok b) (hnb : b ≠ Json.null)
    (h : jGet log track_field = .ok Json.null) : to_entry log = .ok none := by
  simp [to_entry, ha, hna, hb, hnb, h]

theorem to_entry_complete (log : Json) (a b t : Json)
    (ha : jGet log artist_field = .ok a) (hna : a ≠ Json.null)
    (hb : jGet log album_field = .ok b) (hnb : b ≠ Json.null)
    (ht : jGet log track_field = .ok t) (hnt : t ≠ Json.null) :
    to_entry log = .ok (some ⟨a, b, t⟩) := by
  simp [to_entry, ha, hna, hb, hnb, ht, hnt]

theorem jGet_mkRecord_artist (va vb vt : Option Json) :
    jGet (mkRecord va vb vt) artist_field =
      match va with
      | none => .error .keyError
      | some v => .ok v := by
  rcases va with _ | a <;> rcases vb with _ | b <;> rcases vt with _ | t <;> rfl

theorem jGet_mkRecord_album (va vb vt : Option Json) :
    jGet (mkRecord va vb vt) album_field =
      match vb with
      | none => .error .keyError
      | some v => .ok v := by
  rcases va with _ | a <;> rcases vb with _ | b <;> rcases vt with _ | t <;> rfl

theorem jGet_mkRecord_track (va vb vt : Option Json) :
    jGet (mkRecord va vb vt) track_field =
      match vt with
      | none => .error .keyError
      | some v => .ok v := by
  rcases va with _ | a <;> rcases vb with _ | b <;> rcases vt with _ | t <;> rfl

/-! ## The claims -/

/-- C1 (counter consistency): after ingesting any combination of files
that the program accepts, every artist's `total_listens` equals the sum
of its albums' `total_listens`, and every album's `total_listens` equals
the sum of its track counts. -/
theorem C1_counter_consistency (files : List FileContents) (c : Catalog)
    (h : ingestAll [] files = .ok c) : catalogConsistent c := by
  rw [ingestAll_factor] at h
  cases hef : extractFiles files with
  | error e =>
    rw [hef] at h
    cases h
  | ok es =>
    rw [hef] at h
    simp only [Except.map] at h
    injection h with h2
    rw [← h2]
    exact foldl_consistent es [] nil_consistent

/-- C1 witness: the spec's four-record scenario satisfies the invariant. -/
theorem C1_counter_consistency_witness :
    ingestAll [] scenarioFiles = Except.ok scenarioCatalog ∧
      catalogConsistent scenarioCatalog :=
  ⟨rfl, C1_counter_consistency scenarioFiles scenarioCatalog rfl⟩

/-- C2 counterexample: a record MISSING the artist key (rather than
carrying an explicit null) is not skipped — `log["…artist_name"]` raises
`KeyError`, and ingesting a file containing it aborts instead of
producing an Entry-free pass. -/
theorem C2_counterexample :
    to_entry (Json.obj [(album_field, Json.str "X"), (track_field, Json.str "T")]) =
      Except.error PyError.keyError ∧
    load_dataset []
        (some (Json.arr
          [Json.obj [(album_field, Json.str "X"), (track_field, Json.str "T")]])) =
      Except.error PyError.keyError := by
  exact ⟨rfl, rfl⟩

/-- C2 (amended, entry validation): a record whose fields are present
skips (no Entry, no increments, run continues) as soon as the first
field in artist→album→track order is null; an ABSENT field reached
before any null raises a fatal `KeyError` instead of skipping; a record
with all three fields present and non-null yields the corresponding
Entry. -/
theorem C2_validation (d : Catalog) (va vb vt : Option Json) :
    (va = some Json.null →
      to_entry (mkRecord va vb vt) = .ok none ∧
      processLogs d [mkRecord va vb vt] = .ok d) ∧
    (∀ a, va = some a → a ≠ Json.null → vb = some Json.null →
      to_entry (mkRecord va vb vt) = .ok none ∧
      processLogs d [mkRecord va vb vt] = .ok d) ∧
    (∀ a b, va = some a → a ≠ Json.null → vb = some b → b ≠ Json.null →
      vt = some Json.null →
      to_entry (mkRecord va vb vt) = .ok none ∧
      processLogs d [mkRecord va vb vt] = .ok d) ∧
    (va = none → to_entry (mkRecord va vb vt) = .error .keyError) ∧
    (∀ a, va = some a → a ≠ Json.null → vb = none →
      to_entry (mkRecord va vb vt) = .error .keyError) ∧
    (∀ a b, va = some a → a ≠ Json.null → vb = some b → b ≠ Json.null →
      vt = none → to_entry (mkRecord va vb vt) = .error .keyError) ∧
    (∀ a b t, va = some a → a ≠ Json.null → vb = some b → b ≠ Json.null →
      vt = some t → t ≠ Json.null →
      to_entry (mkRecord va vb vt) = .ok (some ⟨a, b, t⟩)) := by
  refine ⟨?_, ?_, ?_, ?_, ?_, ?_, ?_⟩
  · intro h1
    subst h1
    have ha : jGet (mkRecord (some Json.null) vb vt) artist_field = .ok Json.null :=
      jGet_mkRecord_artist _ vb vt
    have h2 := to_entry_artist_null _ ha
    exact ⟨h2, processLogs_single_skip _ d h2⟩
  · intro a h1 hna h3
    subst h1
    subst h3
    have ha : jGet (mkRecord (some a) (some Json.null) vt) artist_field = .ok a :=
      jGet_mkRecord_artist _ _ vt
    have hb : jGet (mkRecord (some a) (some Json.null) vt) album_field = .ok Json.null :=
      jGet_mkRecord_album _ _ vt
    have h2 := to_entry_album_null _ _ ha hna hb
    exact ⟨h2, processLogs_single_skip _ d h2⟩
  · intro a b h1 hna h2 hnb h3
    subst h1
    subst h2
    subst h3
    have ha : jGet (mkRecord (some a) (some b) (some Json.null)) artist_field = .ok a :=
      jGet_mkRecord_artist _ _ _
    have hb : jGet (mkRecord (some a) (some b) (some Json.null)) album_field = .ok b :=
      jGet_mkRecord_album _ _ _
    have ht : jGet (mkRecord (some a) (some b) (some Json.null)) track_field = .ok Json.null :=
      jGet_mkRecord_track _ _ _
    have h4 := to_entry_track_null _ _ _ ha hna hb hnb ht
    exact ⟨h4, processLogs_single_skip _ d h4⟩
  · intro h1
    subst h1
    have ha : jGet (mkRecord none vb vt) artist_field = .error .keyError :=
      jGet_mkRecord_artist _ vb vt
    exact to_entry_artist_error _ _ ha
  · intro a h1 hna h2
    subst h1
    subst h2
    have ha : jGet (mkRecord (some a) none vt) artist_field = .ok a :=
      jGet_mkRecord_artist _ _ vt
    have hb : jGet (mkRecord (some a) none vt) album_field = .error .keyError :=
      jGet_mkRecord_album _ _ vt
    exact to_entry_album_error _ _ _ ha hna hb
  · intro a b h1 hna h2 hnb h3
    subst h1
    subst h2
    subst h3
    have ha : jGet (mkRecord (some a) (some b) none) artist_field = .ok a :=
      jGet_mkRecord_artist _ _ _
    have hb : jGet (mkRecord (some a) (some b) none) album_field = .ok b :=
      jGet_mkRecord_album _ _ _
    have ht : jGet (mkRecord (some a) (some b) none) track_field = .error .keyError :=
      jGet_mkRecord_track _ _ _
    exact to_entry_track_error _ _ _ _ ha hna hb hnb ht
  · intro a b t h1 hna h2 hnb h3 hnt
    subst h1
    subst h2
    subst h3
    have ha : jGet (mkRecord (some a) (some b) (some t)) artist_field = .ok a :=
      jGet_mkRecord_artist _ _ _
    have hb : jGet (mkRecord (some a) (some b) (some t)) album_field = .ok b :=
      jGet_mkRecord_album _ _ _
    have ht : jGet (mkRecord (some a) (some b) (some t)) track_field = .ok t :=
      jGet_mkRecord_track _ _ _
    exact to_entry_complete _ _ _ _ ha hna hb hnb ht hnt

/-- C2 witness: a record with a null album (artist present, non-null) is
skipped and leaves the catalog unchanged. -/
theorem C2_validation_witness :
    to_entry (mkRecord (some (Json.str "A")) (some Json.null) (some (Json.str "T"))) =
      Except.ok none ∧
    processLogs []
        [mkRecord (some (Json.str "A")) (some Json.null) (some (Json.str "T"))] =
      Except.ok [] :=
  (C2_validation [] _ _ _).2.1 (Json.str "A") rfl (by decide) rfl

/-- C3 counterexample: a file whose contents are the valid-JSON,
non-array value `{}` does NOT abort the run — `list({})` is empty, so
the file is silently treated as zero records and the catalog is
unchanged. -/
theorem C3_counterexample :
    isArr (Json.obj []) = false ∧
    load_dataset [] (some (Json.obj [])) = Except.ok ([] : Catalog) := by
  exact ⟨rfl, rfl⟩

/-- C3 (amended, malformed input file): a file that is not valid JSON
aborts the run with `json.JSONDecodeError`; a file whose top-level value
is not an array aborts with a `TypeError` — except an empty object or
empty string, which `list()` coerces to zero records, silently skipping
the file with the catalog unchanged. -/
theorem C3_malformed (d : Catalog) (f : FileContents) :
    (f = none → load_dataset d f = .error .jsonDecodeError) ∧
    (∀ j, f = some j → isArr j = false →
      ((j = Json.obj [] ∨ j = Json.str "") → load_dataset d f = .ok d) ∧
      (¬(j = Json.obj [] ∨ j = Json.str "") →
        load_dataset d f = .error .typeError)) := by
  refine ⟨?_, ?_⟩
  · intro h
    subst h
    rfl
  · intro j h hja
    subst h
    constructor
    · intro hj
      rcases hj with hj | hj <;> subst hj <;> rfl
    · intro hj
      push_neg at hj
      obtain ⟨hj1, hj2⟩ := hj
      cases j with
      | null => rfl
      | bool b => rfl
      | num n => rfl
      | str s =>
        obtain ⟨cs⟩ := s
        cases cs with
        | nil => exact absurd rfl hj2
        | cons c cs2 => rfl
      | arr xs => simp [isArr] at hja
      | obj kvs =>
        cases kvs with
        | nil => exact absurd rfl hj1
        | cons kv rest =>
          obtain ⟨k, v⟩ := kv
          rfl

/-- C3 witness: an invalid-JSON file is a fatal decode error, and the
top-level value `5` is a fatal `TypeError`. -/
theorem C3_malformed_witness :
    load_dataset [] none = Except.error PyError.jsonDecodeError ∧
    load_dataset [] (some (Json.num 5)) = Except.error PyError.typeError :=
  ⟨(C3_malformed [] none).1 rfl,
    ((C3_malformed [] (some (Json.num 5))).2 (Json.num 5) rfl rfl).2 (by decide)⟩

set_option maxRecDepth 8000 in
/-- C4 (scenario correctness): the spec's four-record input produces the
catalog `{A: {albums: {X: {tracks: {T1: 2, T2: 1}, total_listens: 3}},
total_listens: 3}}`, and `save` serializes it to exactly that JSON
document (pretty-printed with 4-space indentation, as the program
writes it). -/
theorem C4_scenario :
    ingestAll [] scenarioFiles = Except.ok scenarioCatalog ∧
    save scenarioCatalog =
      "\x7b\n    \"A\": \x7b\n        \"albums\": \x7b\n            \"X\": \x7b\n                \"tracks\": \x7b\n                    \"T1\": 2,\n                    \"T2\": 1\n                \x7d,\n                \"total_listens\": 3\n            \x7d\n        \x7d,\n        \"total_listens\": 3\n    \x7d\n\x7d" := by
  exact ⟨rfl, rfl⟩

/-- C5 (ordering): the finalized artist list is non-increasing by
`total_listens`; the sort is stable (for every count value, the
artists with that count appear in catalog order); and the catalog's key
order is exactly first-encounter order over the ingested entry stream. -/
theorem C5_ordering (files : List FileContents) (c : Catalog)
    (h : ingestAll [] files = .ok c) :
    (sortArtists c).Pairwise (fun p q => q.2.total_listens ≤ p.2.total_listens) ∧
    (∀ n : Int, (sortArtists c).filter (fun kv => kv.2.total_listens = n) =
      c.filter (fun kv => kv.2.total_listens = n)) ∧
    ∃ es, extractFiles files = .ok es ∧ keysOf c = firstEncounterOrder es := by
  refine ⟨sortArtists_pairwise c, fun n => sortArtists_filter n c, ?_⟩
  rw [ingestAll_factor] at h
  cases hef : extractFiles files with
  | error e =>
    rw [hef] at h
    cases h
  | ok es =>
    rw [hef] at h
    simp only [Except.map] at h
    injection h with h2
    refine ⟨es, rfl, ?_⟩
    rw [← h2, keysOf_foldl]
    rfl

/-- C5 witness: the ordering properties hold for the scenario catalog. -/
theorem C5_ordering_witness :
    ingestAll [] scenarioFiles = Except.ok scenarioCatalog ∧
    ((sortArtists scenarioCatalog).Pairwise
        (fun p q => q.2.total_listens ≤ p.2.total_listens) ∧
      (∀ n : Int,
        (sortArtists scenarioCatalog).filter (fun kv => kv.2.total_listens = n) =
          scenarioCatalog.filter (fun kv => kv.2.total_listens = n)) ∧
      ∃ es, extractFiles scenarioFiles = .ok es ∧
        keysOf scenarioCatalog = firstEncounterOrder es) :=
  ⟨rfl, C5_ordering scenarioFiles scenarioCatalog rfl⟩

/-- C6 (per-entry fold effect): a successfully processed entry adds
exactly 1 to its artist's, album's and track's counters (creating each
level if absent), changes no other artist, album or track, and removes
nothing. -/
theorem C6_fold_effect (d : Catalog) (e : Entry) (d' : Catalog)
    (h : processEntry d e = .ok d') :
    artistListens d' e.artist_name = artistListens d e.artist_name + 1 ∧
    albumListens d' e.artist_name e.album_name =
      albumListens d e.artist_name e.album_name + 1 ∧
    trackListens d' e.artist_name e.album_name e.track_name =
      trackListens d e.artist_name e.album_name e.track_name + 1 ∧
    (∀ a, a ≠ e.artist_name → alGet d' a = alGet d a) ∧
    (∀ b, b ≠ e.album_name →
      alGet (albumsOf d' e.artist_name) b = alGet (albumsOf d e.artist_name) b) ∧
    (∀ t, t ≠ e.track_name →
      alGet (tracksOf d' e.artist_name e.album_name) t =
        alGet (tracksOf d e.artist_name e.album_name) t) ∧
    (∀ a, (alGet d a).isSome → (alGet d' a).isSome) ∧
    (∀ a b, (alGet (albumsOf d a) b).isSome → (alGet (albumsOf d' a) b).isSome) ∧
    (∀ a b t, (alGet (tracksOf d a b) t).isSome →
      (alGet (tracksOf d' a b) t).isSome) := by
  have hd := processEntry_ok d e d' h
  subst hd
  refine ⟨?_, ?_, ?_, ?_, ?_, ?_, ?_, ?_, ?_⟩
  · rw [artistListens_applyEntry]
    simp
  · rw [albumListens_applyEntry]
    simp
  · rw [trackListens_applyEntry]
    simp
  · intro a ha
    exact alGet_applyEntry_ne d e a ha
  · intro b hb
    rw [albumsOf_applyEntry_self]
    exact alGet_alSet_ne _ _ _ _ hb
  · intro t ht
    rw [tracksOf_applyEntry_self]
    exact alGet_alSet_ne _ _ _ _ ht
  · intro a ha
    by_cases h1 : a = e.artist_name
    · subst h1
      rw [alGet_applyEntry_self]
      rfl
    · rw [alGet_applyEntry_ne d e a h1]
      exact ha
  · intro a b hb
    by_cases h1 : a = e.artist_name
    · subst h1
      rw [albumsOf_applyEntry_self]
      by_cases h2 : b = e.album_name
      · subst h2
        rw [alGet_alSet_self]
        rfl
      · rw [alGet_alSet_ne _ _ _ _ h2]
        exact hb
    · rw [albumsOf_applyEntry_ne d e a h1]
      exact hb
  · intro a b t ht
    by_cases h1 : a = e.artist_name
    · subst h1
      by_cases h2 : b = e.album_name
      · subst h2
        rw [tracksOf_applyEntry_self]
        by_cases h3 : t = e.track_name
        · subst h3
          rw [alGet_alSet_self]
          rfl
        · rw [alGet_alSet_ne _ _ _ _ h3]
          exact ht
      · rw [tracksOf_applyEntry_ne_album d e b h2]
        exact ht
    · rw [tracksOf_applyEntry_ne_artist d e a b h1]
      exact ht

/-- C6 witness: processing one concrete entry on the empty catalog bumps
its artist counter from 0 to 1. -/
theorem C6_fold_effect_witness :
    artistListens (applyEntry [] ⟨Json.str "A", Json.str "X", Json.str "T"⟩)
        (Json.str "A") =
      artistListens [] (Json.str "A") + 1 :=
  (C6_fold_effect [] ⟨Json.str "A", Json.str "X", Json.str "T"⟩
    (applyEntry [] ⟨Json.str "A", Json.str "X", Json.str "T"⟩) rfl).1

/-- C7 (idempotent re-run): the output bytes are a function of the input
directory alone — two runs of the program over the same files with the
same contents in the same discovery order write identical output. -/
theorem C7_idempotent (dataDir : Option (List FileContents)) (s1 s2 : String)
    (h1 : (mainRun dataDir).outputFile = some s1)
    (h2 : (mainRun dataDir).outputFile = some s2) : s1 = s2 := by
  rw [h1] at h2
  exact Option.some.inj h2

/-- C7 witness: two runs over the empty directory both write `{}`. -/
theorem C7_idempotent_witness :
    (mainRun (some [])).outputFile = some "\x7b\x7d" ∧
      ("\x7b\x7d" : String) = "\x7b\x7d" :=
  ⟨rfl, C7_idempotent (some []) "\x7b\x7d" "\x7b\x7d" rfl rfl⟩

/-- C8 counterexample: with the input directory present but containing
one malformed file, the process exits with status 1 and writes nothing —
the claim's "otherwise … exits with status 0" fails. -/
theorem C8_counterexample :
    (mainRun (some [none])).exitCode = 1 ∧
    (mainRun (some [none])).outputFile = none := by
  exact ⟨rfl, rfl⟩

/-- C8 (amended, CLI surface): a missing input directory prints the
error line, exits with status 1 and writes no output; with the
directory present, if every file ingests without an exception the
process writes the serialized catalog and exits 0, while an ingestion
exception exits 1 without writing output. -/
theorem C8_cli (dataDir : Option (List FileContents)) :
    (dataDir = none →
      mainRun dataDir = ⟨1, some missingDirMessage, none⟩) ∧
    (∀ files c, dataDir = some files → ingestAll [] files = .ok c →
      mainRun dataDir = ⟨0, none, some (save c)⟩) ∧
    (∀ files err, dataDir = some files → ingestAll [] files = .error err →
      mainRun dataDir = ⟨1, none, none⟩) := by
  refine ⟨?_, ?_, ?_⟩
  · intro h
    subst h
    rfl
  · intro files c h1 h2
    subst h1
    simp [mainRun, h2]
  · intro files err h1 h2
    subst h1
    simp [mainRun, h2]

/-- C8 witness: the missing-directory branch at a concrete world. -/
theorem C8_cli_witness :
    mainRun none = ⟨1, some missingDirMessage, none⟩ :=
  (C8_cli none).1 rfl

/-- C9 (empty input): zero input files produce the output file `{}`,
with exit status 0. -/
theorem C9_empty_input :
    save ([] : Catalog) = "\x7b\x7d" ∧
    mainRun (some []) = ⟨0, none, some "\x7b\x7d"⟩ := by
  exact ⟨rfl, rfl⟩

/-- C10 (shared class-level catalog): `Parser.data` is a class
attribute, so a second `Parser` constructed in the same process starts
from the first run's catalog instead of an empty one; ingesting the same
files again doubles every artist, album and track counter. -/
theorem C10_shared_catalog (files : List FileContents) (c1 c2 : Catalog)
    (h1 : ingestAll [] files = .ok c1) (h2 : ingestAll c1 files = .ok c2) :
    ∀ a b t : Json,
      artistListens c2 a = 2 * artistListens c1 a ∧
      albumListens c2 a b = 2 * albumListens c1 a b ∧
      trackListens c2 a b t = 2 * trackListens c1 a b t := by
  rw [ingestAll_factor] at h1 h2
  cases hef : extractFiles files with
  | error e =>
    rw [hef] at h1
    cases h1
  | ok es =>
    rw [hef] at h1 h2
    simp only [Except.map] at h1 h2
    injection h1 with h1'
    injection h2 with h2'
    subst h1'
    subst h2'
    intro a b t
    refine ⟨?_, ?_, ?_⟩
    · rw [artistListens_foldl, artistListens_foldl, artistListens_nil]
      omega
    · rw [albumListens_foldl, albumListens_foldl, albumListens_nil]
      omega
    · rw [trackListens_foldl, trackListens_foldl, trackListens_nil]
      omega

/-- C10 witness: re-ingesting the scenario through a second instance
doubles artist A's count from 3 to 6. -/
theorem C10_shared_catalog_witness :
    ingestAll [] scenarioFiles = Except.ok scenarioCatalog ∧
    ingestAll scenarioCatalog scenarioFiles =
      Except.ok
        [(Json.str "A",
          { albums :=
              [(Json.str "X",
                { tracks := [(Json.str "T1", 4), (Json.str "T2", 2)],
                  total_listens := 6 })],
            total_listens := 6 })] ∧
    artistListens
        [(Json.str "A",
          { albums :=
              [(Json.str "X",
                { tracks := [(Json.str "T1", 4), (Json.str "T2", 2)],
                  total_listens := 6 })],
            total_listens := 6 })] (Json.str "A") =
      2 * artistListens scenarioCatalog (Json.str "A") :=
  ⟨rfl, rfl,
    (C10_shared_catalog scenarioFiles scenarioCatalog _ rfl rfl
      (Json.str "A") (Json.str "X") (Json.str "T1")).1⟩
